import Mathlib

/-!
Verification of the proxy-based mock-construction engine in `src/index.ts`
(the `munamuna` engine: `proxyHandler`, `getTraps`, `setTraps`, `mockFunction`,
`createProxy`, `munamuna`).

The engine mutates a tree of plain data nodes (objects / arrays / installed
mock functions) through an interception layer.  We embed it shallowly:

* backing nodes live in a heap keyed by `NodeId`;
* the side tables of the source (`proxyMap`, `metaMap`, `functionSet`, the
  per-proxy mutable `target.obj` binding, and the return-value containers
  created by `mockFunction`) are explicit association tables in a `St` record;
* every trap of the source becomes a function `St → … → Except String St`
  (a thrown JavaScript error becomes `Except.error msg`; the source throws
  before performing any mutation on these paths, so the pre-state is the
  state at the moment of the throw).

JavaScript details that matter and how they are modelled:

* `WeakMap.set` with a primitive key throws a `TypeError`; inside
  `proxyHandler.get` this throw (from `munamuna(existing)` applied to a
  truthy primitive) is swallowed by the surrounding `try` and control falls
  through to child creation.  Our `getChild` therefore takes the creation
  path for every child value that is not a reference to a heap node.
* property insertion order is observable (`Object.getOwnPropertyNames`,
  `Object.assign`); object entries are kept as insertion-ordered lists.
* array holes are observable (`delete arr[i]`, sparse index assignment);
  arrays are lists of `Option Val` with `none` for a hole.
* string-keyed expando properties on arrays are not modelled; no verified
  code path stores a string key on an array node.
-/

namespace Munamuna

abbrev NodeId := Nat
abbrev ProxyId := Nat
abbrev RetObjId := Nat

/-- Primitive (non-object) JavaScript values, plus opaque externally supplied
function values (`typeof v === 'function'` but not created by the engine). -/
inductive Prim where
  | num (n : Int)
  | str (s : String)
  | boolv (b : Bool)
  | undefined
  | funVal (id : Nat)
deriving DecidableEq, Repr

/-- Ordinary property keys.  `Key.num n` models a key `k` with `!isNaN(k)`
(the numeric-index check of `proxyHandler.set`); `Key.str s` models a
non-numeric string key.  The operator symbols are not keys: the source
dispatches them to `getTraps`/`setTraps` before ordinary navigation, and we
model each trap as its own function. -/
inductive Key where
  | str (s : String)
  | num (n : Nat)
deriving DecidableEq, Repr

/-- A value stored in a property slot: a primitive or a reference to a heap
node (object, array or installed mock function). -/
inductive Val where
  | prim (p : Prim)
  | ref (n : NodeId)
deriving DecidableEq, Repr

/-- A backing heap node.  `fn` is a function installed by `mockFunction`:
`isSpy` records whether it was wrapped by the injected spy constructor,
`retObj` names its return-value container, `mocked` is the override
installed by the spy's `mockReturnValue`, and `entries` are expando
properties (functions are objects in JavaScript). -/
inductive NodeObj where
  | obj (entries : List (Key × Val))
  | arr (elems : List (Option Val))
  | fn (isSpy : Bool) (retObj : RetObjId) (mocked : Option Val) (entries : List (Key × Val))
deriving DecidableEq, Repr

/-- The return-value container created by `mockFunction`:
`{ value, [spy]: … }` in the source.  `spyFn` is the node id of the spy
function stored under the `spy` symbol (or `none` when it was created by
`[returns]`, where the source stores `undefined`). -/
structure RetObj where
  value : Val
  spyFn : Option NodeId
deriving DecidableEq, Repr

/-- Nat-keyed association table (insertion ordered, first match wins). -/
abbrev Tbl (α : Type) := List (Nat × α)

def Tbl.find {α : Type} : Tbl α → Nat → Option α
  | [], _ => none
  | (k, v) :: rest, i => if k = i then some v else Tbl.find rest i

def Tbl.set {α : Type} : Tbl α → Nat → α → Tbl α
  | [], i, v => [(i, v)]
  | (k, w) :: rest, i, v =>
      if k = i then (i, v) :: rest else (k, w) :: Tbl.set rest i v

/-- Lookup in an insertion-ordered property list. -/
def entGet : List (Key × Val) → Key → Option Val
  | [], _ => none
  | (k, v) :: rest, i => if k = i then some v else entGet rest i

/-- Property write: an existing key is updated in place, a new key is
appended at the end (JavaScript insertion order). -/
def entSet : List (Key × Val) → Key → Val → List (Key × Val)
  | [], i, v => [(i, v)]
  | (k, w) :: rest, i, v =>
      if k = i then (i, v) :: rest else (k, w) :: entSet rest i v

/-- Property delete.  Entry lists built by `entSet` never contain a key
twice (JavaScript objects have unique keys), so removing every occurrence
is the same as removing the one occurrence. -/
def entDel : List (Key × Val) → Key → List (Key × Val)
  | [], _ => []
  | (k, w) :: rest, i => if k = i then entDel rest i else (k, w) :: entDel rest i

/-- Array element read (holes and out-of-range indices read as absent). -/
def arrGet : List (Option Val) → Nat → Option Val
  | [], _ => none
  | e :: _, 0 => e
  | _ :: rest, i + 1 => arrGet rest i

/-- Array index assignment: in-range indices are overwritten; assigning past
the end extends the array, leaving the intervening indices as holes. -/
def arrSet : List (Option Val) → Nat → Val → List (Option Val)
  | [], 0, v => [some v]
  | [], i + 1, v => none :: arrSet [] i v
  | _ :: rest, 0, v => some v :: rest
  | e :: rest, i + 1, v => e :: arrSet rest i v

/-- `delete arr[i]`: replaces an in-range element by a hole, keeps `length`. -/
def arrDel : List (Option Val) → Nat → List (Option Val)
  | [], _ => []
  | _ :: rest, 0 => none :: rest
  | e :: rest, i + 1 => e :: arrDel rest i

/-- The whole engine state: the backing heap plus the source's side tables.
`proxies` is the per-proxy mutable `target.obj` binding of `createProxy`;
`proxyMap`, `metaMap` and `functionSet` are the module-level WeakMaps;
`retObjs` stores the return-value containers.  `functionSet` is keyed by the
WeakMap key used in the source (`prevTarget`, a value). -/
structure St where
  heap : Tbl NodeObj
  retObjs : Tbl RetObj
  proxies : Tbl NodeId
  proxyMap : Tbl ProxyId
  metaMap : Tbl (NodeId × Key)
  functionSet : List (Val × RetObjId)
  nextNode : Nat
  nextProxy : Nat
  nextRet : Nat
deriving DecidableEq, Repr

def fsFind : List (Val × RetObjId) → Val → Option RetObjId
  | [], _ => none
  | (k, v) :: rest, i => if k = i then some v else fsFind rest i

def fsSet : List (Val × RetObjId) → Val → RetObjId → List (Val × RetObjId)
  | [], i, v => [(i, v)]
  | (k, w) :: rest, i, v =>
      if k = i then (i, v) :: rest else (k, w) :: fsSet rest i v

/-- Read property `k` of a node object. -/
def nodeObjGet : NodeObj → Key → Option Val
  | .obj es, k => entGet es k
  | .arr el, .num i => arrGet el i
  | .arr _, .str _ => none
  | .fn _ _ _ es, k => entGet es k

/-- Read property `k` of heap node `n` (absent on a missing node). -/
def St.nodeGet (s : St) (n : NodeId) (k : Key) : Option Val :=
  match s.heap.find n with
  | some o => nodeObjGet o k
  | none => none

/-- Whether a write of key `k` on this node is reflected by a subsequent
read (false only for the unmodelled string-key-on-array combination). -/
def storable : NodeObj → Key → Bool
  | .arr _, .str _ => false
  | _, _ => true

/-- Write property `k` on a node object.  String keys on arrays are left
unmodelled (no verified path stores one). -/
def nodeObjSet : NodeObj → Key → Val → NodeObj
  | .obj es, k, v => .obj (entSet es k v)
  | .arr el, .num i, v => .arr (arrSet el i v)
  | .arr el, .str _, _ => .arr el
  | .fn sp r m es, k, v => .fn sp r m (entSet es k v)

def St.nodeSet (s : St) (n : NodeId) (k : Key) (v : Val) : St :=
  match s.heap.find n with
  | some o => { s with heap := s.heap.set n (nodeObjSet o k v) }
  | none => s

def nodeObjDel : NodeObj → Key → NodeObj
  | .obj es, k => .obj (entDel es k)
  | .arr el, .num i => .arr (arrDel el i)
  | .arr el, .str _ => .arr el
  | .fn sp r m es, k => .fn sp r m (entDel es k)

def St.nodeDel (s : St) (n : NodeId) (k : Key) : St :=
  match s.heap.find n with
  | some o => { s with heap := s.heap.set n (nodeObjDel o k) }
  | none => s

/-- JavaScript truthiness of a property read. -/
def truthy : Option Val → Bool
  | none => false
  | some (.ref _) => true
  | some (.prim (.num n)) => n ≠ 0
  | some (.prim (.str s)) => s ≠ ""
  | some (.prim (.boolv b)) => b
  | some (.prim .undefined) => false
  | some (.prim (.funVal _)) => true

/-- `typeof v === 'object'` for the values the engine manipulates: true for
references to object and array nodes, false for primitives and functions
(both engine-installed `fn` nodes and external `funVal` values). -/
def isObjectVal (s : St) : Val → Bool
  | .ref n =>
      match s.heap.find n with
      | some (.obj _) => true
      | some (.arr _) => true
      | some (.fn _ _ _ _) => false
      | none => false
  | .prim _ => false

/-- Values accepted as WeakMap keys (objects and functions). -/
def isWeakKey : Val → Bool
  | .ref _ => true
  | .prim (.funVal _) => true
  | .prim _ => false

def St.empty : St := ⟨[], [], [], [], [], [], 0, 0, 0⟩

/-- Allocate a fresh heap node (a literal constructed by the test author, or
an internal allocation of the engine). -/
def allocNode (s : St) (o : NodeObj) : St × NodeId :=
  ({ s with heap := s.heap.set s.nextNode o, nextNode := s.nextNode + 1 }, s.nextNode)

/-- The exported entry point `munamuna(obj)`: return the registered proxy for
the node if one exists, otherwise create one, bind its `target.obj` to the
node and register it in `proxyMap`. -/
def munamuna (s : St) (n : NodeId) : St × ProxyId :=
  match s.proxyMap.find n with
  | some p => (s, p)
  | none =>
      let p := s.nextProxy
      ({ s with proxies := s.proxies.set p n,
                proxyMap := s.proxyMap.set n p,
                nextProxy := s.nextProxy + 1 }, p)

/-- The child-creation tail of `proxyHandler.get`: synthesize a fresh empty
object, install it (replacing the whole node when the node is currently an
array), record its attachment metadata, and hand back `munamuna(newProp)`. -/
def createChild (s : St) (p : ProxyId) (obj : NodeId) (k : Key) :
    Except String (St × ProxyId) :=
  let newProp := s.nextNode
  let s1 : St := { s with heap := s.heap.set newProp (.obj []), nextNode := s.nextNode + 1 }
  match s1.heap.find obj with
  | some (.arr _) =>
      match s1.metaMap.find obj with
      | none =>
          .error "Something went badly wrong when accesing a path that used to be an array, please report a bug"
      | some (par, pk) =>
          let newObj := s1.nextNode
          let s2 : St := { s1 with heap := s1.heap.set newObj (.obj [(k, .ref newProp)]),
                                   nextNode := s1.nextNode + 1 }
          let s3 : St := { s2 with proxies := s2.proxies.set p newObj }
          let s4 := s3.nodeSet par pk (.ref newObj)
          let s5 : St := { s4 with metaMap := s4.metaMap.set newObj (par, pk),
                                   proxyMap := s4.proxyMap.set newObj p }
          let s6 : St := { s5 with metaMap := s5.metaMap.set newProp (newObj, k) }
          .ok (munamuna s6 newProp)
  | _ =>
      let s2 := s1.nodeSet obj k (.ref newProp)
      let s3 : St := { s2 with metaMap := s2.metaMap.set newProp (obj, k) }
      .ok (munamuna s3 newProp)

/-- `proxyHandler.get` for an ordinary (non-trap) key.  An existing child that
is a reference to a heap node is truthy, so the source returns
`munamuna(existing)`.  For a truthy primitive child, `munamuna(existing)`
raises a `TypeError` from `WeakMap.set` which the surrounding `try` swallows;
together with the falsy case, control then falls through to child creation. -/
def getChild (s : St) (p : ProxyId) (k : Key) : Except String (St × ProxyId) :=
  match s.proxies.find p with
  | none => .error "invalid proxy"
  | some obj =>
      match s.nodeGet obj k with
      | some (.ref n) => .ok (munamuna s n)
      | _ => createChild s p obj k

/-- `mockFunction(proxy, obj, value, isReturnsSpy)`: install a mock function
at the node's attachment point.  Returns the id of the installed function
node.  The root check is the first statement of the source, so the error is
raised before any mutation. -/
def mockFunction (s : St) (p : ProxyId) (obj : NodeId) (value : Option Val) (isSpy : Bool) :
    Except String (St × NodeId) :=
  match s.metaMap.find obj with
  | none => .error "Cannot create a function on a top-level munamuna"
  | some (par, pk) =>
      let prevTarget : Val := (s.nodeGet par pk).getD (.prim .undefined)
      let retVal : Val := value.getD prevTarget
      let funId := s.nextNode
      let retId := s.nextRet
      let s1 : St := { s with
        heap := s.heap.set funId (.fn isSpy retId none []),
        retObjs := s.retObjs.set retId ⟨retVal, if isSpy then some funId else none⟩,
        nextNode := s.nextNode + 1, nextRet := s.nextRet + 1 }
      if isWeakKey prevTarget then
        let s2 : St := { s1 with functionSet := fsSet s1.functionSet prevTarget retId }
        let s3 := s2.nodeSet par pk (.ref funId)
        let s4 : St := { s3 with metaMap := s3.metaMap.set funId (par, pk),
                                 proxyMap := s3.proxyMap.set funId p }
        .ok (s4, funId)
      else
        .error "TypeError: Invalid value used as weak map key"

/-- `getTraps[returns]`: create the mock function unless a return-value
container already exists, then return the same handle. -/
def returnsGet (s : St) (p : ProxyId) : Except String (St × ProxyId) :=
  match s.proxies.find p with
  | none => .error "invalid proxy"
  | some obj =>
      if (fsFind s.functionSet (.ref obj)).isSome then .ok (s, p)
      else do
        let (s1, _) ← mockFunction s p obj none false
        .ok (s1, p)

/-- `getTraps[returnsSpy]`: like `returns` but spy-wrapped. -/
def returnsSpyGet (s : St) (p : ProxyId) : Except String (St × ProxyId) :=
  match s.proxies.find p with
  | none => .error "invalid proxy"
  | some obj =>
      if (fsFind s.functionSet (.ref obj)).isSome then .ok (s, p)
      else do
        let (s1, _) ← mockFunction s p obj none true
        .ok (s1, p)

/-- `proxyHandler.apply`: invoking the handle as a function. -/
def applyTrap (s : St) (p : ProxyId) : Except String (St × ProxyId) :=
  match s.proxies.find p with
  | none => .error "invalid proxy"
  | some obj =>
      if (fsFind s.functionSet (.ref obj)).isSome then .ok (s, p)
      else do
        let (s1, _) ← mockFunction s p obj none true
        .ok (s1, p)

/-- `getTraps[spy]`: `functionSet.get(obj)?.[spy] ?? mockFunction(…, true)`.
Returns the node id of the spy function. -/
def spyGet (s : St) (p : ProxyId) : Except String (St × NodeId) :=
  match s.proxies.find p with
  | none => .error "invalid proxy"
  | some obj =>
      match fsFind s.functionSet (.ref obj) with
      | some r =>
          match (s.retObjs.find r).bind RetObj.spyFn with
          | some f => .ok (s, f)
          | none => mockFunction s p obj none true
      | none => mockFunction s p obj none true

def spyMethods : List String :=
  ["mockReturnValue", "mockReturnValueOnce", "mockResolvedValue", "mockResolvedValueOnce",
   "mockRejectedValue", "mockRejectedValueOnce", "mockImplementation", "mockImplementationOnce"]

/-- The string-keyed `getTraps` installed for every spy passthrough method
name: fetch (or lazily create) the spy and return the requested method bound
to it.  We model the result as the node id of the spy whose method is
returned; accessing `retObj[spy][key]` when `retObj[spy]` is `undefined`
(a `[returns]`-made container) raises a `TypeError`. -/
def spyMethodGet (s : St) (p : ProxyId) (_m : String) : Except String (St × NodeId) :=
  match s.proxies.find p with
  | none => .error "invalid proxy"
  | some obj =>
      match fsFind s.functionSet (.ref obj) with
      | some r =>
          match (s.retObjs.find r).bind RetObj.spyFn with
          | some f => .ok (s, f)
          | none => .error "TypeError: cannot read properties of undefined"
      | none => mockFunction s p obj none true

/-- `getTraps[set]` returns the handle unchanged. -/
def setOpGet (s : St) (p : ProxyId) : Except String (St × ProxyId) :=
  match s.proxies.find p with
  | none => .error "invalid proxy"
  | some _ => .ok (s, p)

/-- The callable returned by `getTraps[reset]`:
`for (prop of Object.getOwnPropertyNames(obj)) delete obj[prop]`.
On an object (or function) node every own property is configurable and the
node ends up empty.  On an array node the index properties are deleted and
the subsequent strict-mode `delete obj.length` raises a `TypeError`. -/
def resetOp (s : St) (p : ProxyId) : Except String St :=
  match s.proxies.find p with
  | none => .error "invalid proxy"
  | some obj =>
      match s.heap.find obj with
      | some (.obj _) => .ok { s with heap := s.heap.set obj (.obj []) }
      | some (.fn sp r m _) => .ok { s with heap := s.heap.set obj (.fn sp r m []) }
      | some (.arr _) => .error "TypeError: cannot delete property length of array"
      | none => .error "invalid node"

/-- The callable returned by `getTraps[detach]`: delete `parent[key]`. -/
def detachOp (s : St) (p : ProxyId) : Except String St :=
  match s.proxies.find p with
  | none => .error "invalid proxy"
  | some obj =>
      match s.metaMap.find obj with
      | none => .error "Cannot detach a root munamuna"
      | some (par, pk) => .ok (s.nodeDel par pk)

/-- The callable returned by `getTraps[reattach]`: `parent[key] = obj`. -/
def reattachOp (s : St) (p : ProxyId) : Except String St :=
  match s.proxies.find p with
  | none => .error "invalid proxy"
  | some obj =>
      match s.metaMap.find obj with
      | none => .error "Cannot reattach a top level proxy"
      | some (par, pk) => .ok (s.nodeSet par pk (.ref obj))

/-- `setTraps[returns]`: update the existing container's `value`, or build
the mock function with the assigned value. -/
def returnsSet (s : St) (p : ProxyId) (newVal : Val) : Except String St :=
  match s.proxies.find p with
  | none => .error "invalid proxy"
  | some obj =>
      match fsFind s.functionSet (.ref obj) with
      | some r =>
          match s.retObjs.find r with
          | some ro => .ok { s with retObjs := s.retObjs.set r { ro with value := newVal } }
          | none => .error "missing return container"
      | none => do
          let (s1, _) ← mockFunction s p obj (some newVal) false
          .ok s1

/-- Record a spy's `mockReturnValue` override on a function node. -/
def setMocked (s : St) (f : NodeId) (v : Val) : St :=
  match s.heap.find f with
  | some (.fn sp r _ es) => { s with heap := s.heap.set f (.fn sp r (some v) es) }
  | _ => s

/-- `setTraps[returnsSpy]`: delegate to the spy's `mockReturnValue`, creating
the spy first when none exists.  `retObj[spy].mockReturnValue` raises a
`TypeError` when the container was made by `[returns]` (`retObj[spy]` is
`undefined`). -/
def returnsSpySet (s : St) (p : ProxyId) (newVal : Val) : Except String St :=
  match s.proxies.find p with
  | none => .error "invalid proxy"
  | some obj =>
      match fsFind s.functionSet (.ref obj) with
      | some r =>
          match (s.retObjs.find r).bind RetObj.spyFn with
          | some f => .ok (setMocked s f newVal)
          | none => .error "TypeError: cannot read properties of undefined"
      | none => do
          let (s1, f) ← mockFunction s p obj none true
          .ok (setMocked s1 f newVal)

/-- Spread an array's elements (`...arr` turns holes into `undefined`). -/
def spreadElems (el : List (Option Val)) : List (Option Val) :=
  el.map (fun o => some (o.getD (Val.prim .undefined)))

/-- `proxyHandler.set` for an ordinary key, translated clause by clause from
the source:

1. numeric key on an array node: direct index assignment;
2. numeric key elsewhere: first-time array creation at the node's own
   attachment point, rebinding the handle to the new array;
3. object-typed value over an object-typed child of the same shape: the
   source's merge branch — for arrays it empties the existing array and
   pushes the new elements; for objects it iterates the own property names
   of the existing child and deletes each of those names FROM THE PARENT
   (`delete obj[prop]` in the source), then `Object.assign`s the new
   entries into the child;
4. object-typed value over an object-typed child of the opposite shape:
   replacement through the child's metadata;
5. object-typed value over a non-object child: plain install plus metadata;
6. any other value (primitives and functions): plain install, with the
   array-to-object conversion branch when the node is an array. -/
def setChild (s : St) (p : ProxyId) (k : Key) (newVal : Val) : Except String St :=
  match s.proxies.find p with
  | none => .error "invalid proxy"
  | some obj =>
      match k with
      | .num i =>
          match s.heap.find obj with
          | some (.arr _) => .ok (s.nodeSet obj (.num i) newVal)
          | _ =>
              match s.metaMap.find obj with
              | none => .error "Cannot set an array index on a top-level munamuna"
              | some (par, pk) =>
                  let a := s.nextNode
                  let s1 : St := { s with heap := s.heap.set a (.arr []),
                                          nextNode := s.nextNode + 1 }
                  let s2 := s1.nodeSet par pk (.ref a)
                  let s3 : St := { s2 with metaMap := s2.metaMap.set a (par, pk),
                                           proxyMap := s2.proxyMap.set a p }
                  let s4 := s3.nodeSet a (.num i) newVal
                  .ok { s4 with proxies := s4.proxies.set p a }
      | .str _ =>
          if isObjectVal s newVal then
            match s.nodeGet obj k with
            | some oldV =>
                if isObjectVal s oldV then
                  match newVal, oldV with
                  | .ref vN, .ref cN =>
                      match s.heap.find vN, s.heap.find cN with
                      | some (.arr vEl), some (.arr _) =>
                          .ok { s with heap := s.heap.set cN (.arr (spreadElems vEl)) }
                      | some (.obj vEs), some (.obj cEs) =>
                          let s1 := (cEs.map Prod.fst).foldl (fun t pr => t.nodeDel obj pr) s
                          let s2 := vEs.foldl (fun t kv => t.nodeSet cN kv.1 kv.2) s1
                          .ok s2
                      | _, _ =>
                          match s.metaMap.find cN with
                          | none => .error "Cannot reassign an object to a top-level munamuna"
                          | some (mp, mk) =>
                              let s1 := s.nodeSet mp mk newVal
                              .ok { s1 with metaMap := s1.metaMap.set vN (obj, k) }
                  | _, _ => .error "unreachable: object values are references"
                else
                  match newVal with
                  | .ref vN =>
                      let s1 := s.nodeSet obj k newVal
                      .ok { s1 with metaMap := s1.metaMap.set vN (obj, k) }
                  | .prim _ => .error "unreachable: object values are references"
            | none =>
                match newVal with
                | .ref vN =>
                    let s1 := s.nodeSet obj k newVal
                    .ok { s1 with metaMap := s1.metaMap.set vN (obj, k) }
                | .prim _ => .error "unreachable: object values are references"
          else
            match s.heap.find obj with
            | some (.arr _) =>
                match s.metaMap.find obj with
                | none =>
                    .error "Something went badly wrong when overwriting an array, please report a bug"
                | some (par, pk) =>
                    let nO := s.nextNode
                    let s1 : St := { s with heap := s.heap.set nO (.obj []),
                                            nextNode := s.nextNode + 1 }
                    let s2 := s1.nodeSet par pk (.ref nO)
                    let s3 : St := { s2 with metaMap := s2.metaMap.set nO (par, pk),
                                             proxyMap := s2.proxyMap.set nO p }
                    let s4 := s3.nodeSet nO k newVal
                    .ok { s4 with proxies := s4.proxies.set p nO }
            | _ => .ok (s.nodeSet obj k newVal)

/-- `setTraps[set]`: merge in place when both the assigned value and the
node are object-typed (here the source clears the node itself, iterating
its own property names), otherwise replace the node at its attachment
point. -/
def setOpSet (s : St) (p : ProxyId) (newVal : Val) : Except String St :=
  match s.proxies.find p with
  | none => .error "invalid proxy"
  | some obj =>
      if isObjectVal s newVal && isObjectVal s (.ref obj) then
        match s.heap.find obj with
        | some (.obj _) =>
            let s1 : St := { s with heap := s.heap.set obj (.obj []) }
            match newVal with
            | .ref vN =>
                match s1.heap.find vN with
                | some (.obj vEs) => .ok (vEs.foldl (fun t kv => t.nodeSet obj kv.1 kv.2) s1)
                | some (.arr vEl) =>
                    .ok ((List.range vEl.length).foldl
                      (fun t i => match arrGet vEl i with
                        | some v => t.nodeSet obj (.num i) v
                        | none => t) s1)
                | _ => .error "unreachable: object values are references"
            | .prim _ => .error "unreachable: object values are references"
        | some (.arr _) => .error "TypeError: cannot delete property length of array"
        | _ => .error "unreachable"
      else
        match s.metaMap.find obj with
        | none => .error "Cannot use [set] on a top-level munamuna"
        | some (par, pk) => .ok (s.nodeSet par pk newVal)

/-- Invoke an installed mock function: a spy override from `mockReturnValue`
wins, otherwise the implementation returns the container's current `value`. -/
def invokeFn (s : St) (fnId : NodeId) : Option Val :=
  match s.heap.find fnId with
  | some (.fn _ r mocked _) =>
      some (mocked.getD (((s.retObjs.find r).map RetObj.value).getD (.prim .undefined)))
  | _ => none

/-- Deep value of a tree of backing data, for deep-equality statements
(the shape a test observes with `toEqual`). -/
inductive JVal where
  | num (n : Int)
  | str (s : String)
  | boolv (b : Bool)
  | undefined
  | funTag
  | obj (fields : List (Key × JVal))
  | arr (elems : List JVal)
deriving Repr

/-- Serialize a value to its deep shape, with fuel bounding the depth. -/
def serializeVal (s : St) : Nat → Val → JVal
  | 0, _ => .undefined
  | _, .prim (.num n) => .num n
  | _, .prim (.str t) => .str t
  | _, .prim (.boolv b) => .boolv b
  | _, .prim .undefined => .undefined
  | _, .prim (.funVal _) => .funTag
  | fuel + 1, .ref n =>
      match s.heap.find n with
      | some (.obj es) => .obj (es.map (fun kv => (kv.1, serializeVal s fuel kv.2)))
      | some (.arr el) =>
          .arr (el.map (fun o => serializeVal s fuel (o.getD (.prim .undefined))))
      | some (.fn _ _ _ _) => .funTag
      | none => .undefined

/-! ### Concrete test-author scenarios

Each scenario starts from a fresh empty root handle (`munamuna({})`) and
performs the property accesses, assignments and operator invocations of the
corresponding claim, observing the resulting backing tree. -/

/-- Script of `mock.k.a = 1; mock.a = 99; mock.k = { b: 2 }` — an
object-over-object assignment whose target child `k` has an existing entry
`a` while the parent also has a sibling entry named `a`.  Reports the
serialized root and the parent's own entry at `a` afterwards. -/
def c1run : Except String (JVal × Option Val) := do
  let (s1, root) := allocNode St.empty (.obj [])
  let (s2, h) := munamuna s1 root
  let (s3, pk) ← getChild s2 h (.str "k")
  let s4 ← setChild s3 pk (.str "a") (.prim (.num 1))
  let s5 ← setChild s4 h (.str "a") (.prim (.num 99))
  let (s6, lit) := allocNode s5 (.obj [(.str "b", .prim (.num 2))])
  let s7 ← setChild s6 h (.str "k") (.ref lit)
  .ok (serializeVal s7 8 (.ref root), s7.nodeGet root (.str "a"))

/-- Script of `mock.a.b = 1; mock.c.d = 2; mock.a[reset]()`.  Reports the
serialized root and the root's own entry at `a` afterwards. -/
def c2run : Except String (JVal × Option Val) := do
  let (s1, root) := allocNode St.empty (.obj [])
  let (s2, h) := munamuna s1 root
  let (s3, pa) ← getChild s2 h (.str "a")
  let s4 ← setChild s3 pa (.str "b") (.prim (.num 1))
  let (s5, pc) ← getChild s4 h (.str "c")
  let s6 ← setChild s5 pc (.str "d") (.prim (.num 2))
  let s7 ← resetOp s6 pa
  .ok (serializeVal s7 8 (.ref root), s7.nodeGet root (.str "a"))

/-- Script of `mock.f = someFunction` (plain assignment of a callable).
Reports the root's entry at `f` afterwards. -/
def c3run : Except String (Option Val) := do
  let (s1, root) := allocNode St.empty (.obj [])
  let (s2, h) := munamuna s1 root
  let s3 ← setChild s2 h (.str "f") (.prim (.funVal 7))
  .ok (s3.nodeGet root (.str "f"))

/-- Script of `mock.value[0].outer.inner = 'x'` on a fresh empty root
(a numeric-index read on an object node followed by object path
assignment).  Reports the serialized root. -/
def c4run : Except String JVal := do
  let (s1, root) := allocNode St.empty (.obj [])
  let (s2, h) := munamuna s1 root
  let (s3, pValue) ← getChild s2 h (.str "value")
  let (s4, p0) ← getChild s3 pValue (.num 0)
  let (s5, pOuter) ← getChild s4 p0 (.str "outer")
  let s6 ← setChild s5 pOuter (.str "inner") (.prim (.str "x"))
  .ok (serializeVal s6 8 (.ref root))

/-- Script of `mock.value[0] = 12` on a fresh empty root.  Reports the
serialized root. -/
def c5run : Except String JVal := do
  let (s1, root) := allocNode St.empty (.obj [])
  let (s2, h) := munamuna s1 root
  let (s3, pv) ← getChild s2 h (.str "value")
  let s4 ← setChild s3 pv (.num 0) (.prim (.num 12))
  .ok (serializeVal s4 8 (.ref root))

/-- Script of `mock.fun[returns] = 12`, then invoking the function
installed at `root.fun`. -/
def c6run1 : Except String (Option Val) := do
  let (s1, root) := allocNode St.empty (.obj [])
  let (s2, h) := munamuna s1 root
  let (s3, pf) ← getChild s2 h (.str "fun")
  let s4 ← returnsSet s3 pf (.prim (.num 12))
  match s4.nodeGet root (.str "fun") with
  | some (.ref fid) => .ok (invokeFn s4 fid)
  | _ => .error "no function installed"

/-- Script of `mock.fun[returns].inner = 12`, then invoking the function
installed at `root.fun` and serializing its return value. -/
def c6run2 : Except String JVal := do
  let (s1, root) := allocNode St.empty (.obj [])
  let (s2, h) := munamuna s1 root
  let (s3, pf) ← getChild s2 h (.str "fun")
  let (s4, pr) ← returnsGet s3 pf
  let s5 ← setChild s4 pr (.str "inner") (.prim (.num 12))
  match s5.nodeGet root (.str "fun") with
  | some (.ref fid) =>
      match invokeFn s5 fid with
      | some v => .ok (serializeVal s5 8 v)
      | none => .error "no invocation result"
  | _ => .error "no function installed"

/-- Script of `mock.a.b = 1; mock.a[detach]()`, a further mutation
`mock-a-handle.c = 2` while detached, then `[reattach]()`.  Reports the
serialized root at the three stages. -/
def c7run : Except String (JVal × JVal × JVal) := do
  let (s1, root) := allocNode St.empty (.obj [])
  let (s2, h) := munamuna s1 root
  let (s3, pa) ← getChild s2 h (.str "a")
  let s4 ← setChild s3 pa (.str "b") (.prim (.num 1))
  let s5 ← detachOp s4 pa
  let j1 := serializeVal s5 8 (.ref root)
  let s6 ← setChild s5 pa (.str "c") (.prim (.num 2))
  let j2 := serializeVal s6 8 (.ref root)
  let s7 ← reattachOp s6 pa
  .ok (j1, j2, serializeVal s7 8 (.ref root))

/-- Script of `mock.fun().field = 1` (call syntax). -/
def c8runApply : Except String St := do
  let (s1, root) := allocNode St.empty (.obj [])
  let (s2, h) := munamuna s1 root
  let (s3, pf) ← getChild s2 h (.str "fun")
  let (s4, pr) ← applyTrap s3 pf
  setChild s4 pr (.str "field") (.prim (.num 1))

/-- Script of `mock.fun[returnsSpy].field = 1`. -/
def c8runSpy : Except String St := do
  let (s1, root) := allocNode St.empty (.obj [])
  let (s2, h) := munamuna s1 root
  let (s3, pf) ← getChild s2 h (.str "fun")
  let (s4, pr) ← returnsSpyGet s3 pf
  setChild s4 pr (.str "field") (.prim (.num 1))

/-- Whether a node is currently an array. -/
def NodeObj.isArrNode : NodeObj → Bool
  | .arr _ => true
  | _ => false

/-- Allocation-counter sanity of a state: every heap node id and every
recorded parent id is below the node counter, and every proxy id is below
the proxy counter.  Every state reachable from `munamuna` on fresh objects
satisfies this; it rules out collisions between fresh allocations and the
ids already in use. -/
abbrev St.Bounded (s : St) : Prop :=
  (∀ e ∈ s.heap, e.1 < s.nextNode) ∧
  (∀ e ∈ s.metaMap, e.2.1 < s.nextNode) ∧
  (∀ e ∈ s.proxies, e.1 < s.nextProxy)

/-! ### Small concrete states used to instantiate the general theorems

`rootOnlySt` is the state right after `munamuna({})` on a fresh empty
object.  `attachedChildSt k` is the state right after a first
`munamuna(root)[k]` navigation: node 1 is an empty object installed at
`root[k]` with attachment metadata, bound to proxy 1.  `returnsDoneSt` is
a state in which a `[returns]` function (node 2, container 0 holding node
1) has already been installed at `root.fun`. -/

def rootOnlySt : St :=
  { heap := [(0, .obj [])], retObjs := [], proxies := [(0, 0)], proxyMap := [(0, 0)],
    metaMap := [], functionSet := [], nextNode := 1, nextProxy := 1, nextRet := 0 }

def attachedChildSt (k : String) (childEntries : List (Key × Val)) : St :=
  { heap := [(0, .obj [(.str k, .ref 1)]), (1, .obj childEntries)], retObjs := [],
    proxies := [(1, 1)], proxyMap := [(0, 0), (1, 1)],
    metaMap := [(1, (0, .str k))], functionSet := [],
    nextNode := 2, nextProxy := 2, nextRet := 0 }

def returnsDoneSt : St :=
  { heap := [(0, .obj [(.str "fun", .ref 2)]), (1, .obj []), (2, .fn false 0 none [])],
    retObjs := [(0, ⟨.ref 1, none⟩)], proxies := [(1, 1)],
    proxyMap := [(1, 1), (2, 1)],
    metaMap := [(1, (0, .str "fun")), (2, (0, .str "fun"))],
    functionSet := [(.ref 1, 0)], nextNode := 3, nextProxy := 2, nextRet := 1 }

/-- The state produced by `getChild rootOnlySt 0 (Key.str "a")`. -/
def afterFirstGetSt : St :=
  { heap := [(0, .obj [(.str "a", .ref 1)]), (1, .obj [])], retObjs := [],
    proxies := [(0, 0), (1, 1)], proxyMap := [(0, 0), (1, 1)],
    metaMap := [(1, (0, .str "a"))], functionSet := [],
    nextNode := 2, nextProxy := 2, nextRet := 0 }

/-- The state produced by `setChild (attachedChildSt "value" []) 1 (Key.num 0) 12`. -/
def afterIndexSetSt : St :=
  { heap := [(0, .obj [(.str "value", .ref 2)]), (1, .obj []),
      (2, .arr [some (.prim (.num 12))])], retObjs := [],
    proxies := [(1, 2)], proxyMap := [(0, 0), (1, 1), (2, 1)],
    metaMap := [(1, (0, .str "value")), (2, (0, .str "value"))], functionSet := [],
    nextNode := 3, nextProxy := 2, nextRet := 0 }

/-! ### Basic lemmas about the association tables and node operations -/

theorem tblFind_set_self {α : Type} (m : Tbl α) (i : Nat) (v : α) :
    Tbl.find (Tbl.set m i v) i = some v := by
  induction m with
  | nil => simp [Tbl.set, Tbl.find]
  | cons e rest ih =>
      obtain ⟨k, w⟩ := e
      by_cases h : k = i
      · subst h; simp [Tbl.set, Tbl.find]
      · simp [Tbl.set, Tbl.find, h, ih]

theorem tblFind_set_ne {α : Type} (m : Tbl α) (i j : Nat) (v : α) (h : i ≠ j) :
    Tbl.find (Tbl.set m i v) j = Tbl.find m j := by
  induction m with
  | nil => simp [Tbl.set, Tbl.find, h]
  | cons e rest ih =>
      obtain ⟨k, w⟩ := e
      by_cases hk : k = i
      · subst hk; simp [Tbl.set, Tbl.find, h]
      · by_cases hj : k = j
        · subst hj; simp [Tbl.set, Tbl.find, hk]
        · simp [Tbl.set, Tbl.find, hk, hj, ih]

theorem tblFind_mem {α : Type} (m : Tbl α) (i : Nat) (v : α)
    (h : Tbl.find m i = some v) : (i, v) ∈ m := by
  induction m with
  | nil => simp [Tbl.find] at h
  | cons e rest ih =>
      obtain ⟨k, w⟩ := e
      by_cases hk : k = i
      · subst hk
        simp [Tbl.find] at h
        subst h; exact List.mem_cons_self _ _
      · simp [Tbl.find, hk] at h
        exact List.mem_cons_of_mem _ (ih h)

theorem entGet_entSet_self (es : List (Key × Val)) (k : Key) (v : Val) :
    entGet (entSet es k v) k = some v := by
  induction es with
  | nil => simp [entSet, entGet]
  | cons e rest ih =>
      obtain ⟨k', w⟩ := e
      by_cases h : k' = k
      · subst h; simp [entSet, entGet]
      · simp [entSet, entGet, h, ih]

theorem entGet_entSet_ne (es : List (Key × Val)) (k j : Key) (v : Val) (h : k ≠ j) :
    entGet (entSet es k v) j = entGet es j := by
  induction es with
  | nil => simp [entSet, entGet, h]
  | cons e rest ih =>
      obtain ⟨k', w⟩ := e
      by_cases hk : k' = k
      · subst hk; simp [entSet, entGet, h]
      · by_cases hj : k' = j
        · subst hj; simp [entSet, entGet, hk]
        · simp [entSet, entGet, hk, hj, ih]

theorem entGet_entDel_self (es : List (Key × Val)) (k : Key) :
    entGet (entDel es k) k = none := by
  induction es with
  | nil => simp [entDel, entGet]
  | cons e rest ih =>
      obtain ⟨k', w⟩ := e
      by_cases h : k' = k
      · subst h; simp [entDel, ih]
      · simp [entDel, entGet, h, ih]

theorem arrGet_arrSet_self (el : List (Option Val)) (i : Nat) (v : Val) :
    arrGet (arrSet el i v) i = some v := by
  induction el generalizing i with
  | nil =>
      induction i with
      | zero => simp [arrSet, arrGet]
      | succ n ihn => simp [arrSet, arrGet, ihn]
  | cons e rest ih =>
      cases i with
      | zero => simp [arrSet, arrGet]
      | succ n => simp [arrSet, arrGet, ih]

theorem arrGet_arrDel_self (el : List (Option Val)) (i : Nat) :
    arrGet (arrDel el i) i = none := by
  induction el generalizing i with
  | nil => simp [arrDel, arrGet]
  | cons e rest ih =>
      cases i with
      | zero => simp [arrDel, arrGet]
      | succ n => simp [arrDel, arrGet, ih]

theorem nodeObjGet_set_self (o : NodeObj) (k : Key) (v : Val) (h : storable o k = true) :
    nodeObjGet (nodeObjSet o k v) k = some v := by
  cases o with
  | obj es => simp [nodeObjSet, nodeObjGet, entGet_entSet_self]
  | arr el =>
      cases k with
      | str t => simp [storable] at h
      | num i => simp [nodeObjSet, nodeObjGet, arrGet_arrSet_self]
  | fn sp r m es => simp [nodeObjSet, nodeObjGet, entGet_entSet_self]

theorem nodeObjGet_del_self (o : NodeObj) (k : Key) :
    nodeObjGet (nodeObjDel o k) k = none := by
  cases o with
  | obj es => simp [nodeObjDel, nodeObjGet, entGet_entDel_self]
  | arr el =>
      cases k with
      | str t => simp [nodeObjDel, nodeObjGet]
      | num i => simp [nodeObjDel, nodeObjGet, arrGet_arrDel_self]
  | fn sp r m es => simp [nodeObjDel, nodeObjGet, entGet_entDel_self]

/-- Deleting key `k` on node `n` makes any read of `n[k]` absent. -/
theorem nodeGet_nodeDel_self (s : St) (n : NodeId) (k : Key) :
    (s.nodeDel n k).nodeGet n k = none := by
  unfold St.nodeDel St.nodeGet
  cases h : s.heap.find n with
  | none => simp [h]
  | some o => simp [h, tblFind_set_self, nodeObjGet_del_self]

theorem heap_nodeSet_other (s : St) (n m : NodeId) (k : Key) (v : Val) (h : m ≠ n) :
    (s.nodeSet n k v).heap.find m = s.heap.find m := by
  unfold St.nodeSet
  cases hf : s.heap.find n with
  | none => rfl
  | some o => simp [tblFind_set_ne _ _ _ _ (Ne.symm h)]

theorem heap_nodeDel_other (s : St) (n m : NodeId) (k : Key) (h : m ≠ n) :
    (s.nodeDel n k).heap.find m = s.heap.find m := by
  unfold St.nodeDel
  cases hf : s.heap.find n with
  | none => rfl
  | some o => simp [tblFind_set_ne _ _ _ _ (Ne.symm h)]

theorem metaMap_nodeDel (s : St) (n : NodeId) (k : Key) :
    (s.nodeDel n k).metaMap = s.metaMap := by
  unfold St.nodeDel
  cases s.heap.find n <;> rfl

theorem nodeGet_nodeSet_self (s : St) (n : NodeId) (k : Key) (v : Val) (o : NodeObj)
    (hf : s.heap.find n = some o) (hs : storable o k = true) :
    (s.nodeSet n k v).nodeGet n k = some v := by
  unfold St.nodeSet St.nodeGet
  rw [hf]
  simp [tblFind_set_self, nodeObjGet_set_self _ _ _ hs]

theorem nodeGet_heap_congr (s t : St) (n : NodeId) (k : Key)
    (h : t.heap.find n = s.heap.find n) : t.nodeGet n k = s.nodeGet n k := by
  unfold St.nodeGet
  rw [h]

/-- A node write on an existing node is exactly a heap update. -/
theorem nodeSet_eq (s : St) (n : NodeId) (k : Key) (v : Val) (o : NodeObj)
    (hf : s.heap.find n = some o) :
    s.nodeSet n k v = { s with heap := s.heap.set n (nodeObjSet o k v) } := by
  unfold St.nodeSet
  rw [hf]

/-- First-time index assignment builds the holes explicitly. -/
theorem arrSet_nil (i : Nat) (v : Val) :
    arrSet [] i v = List.replicate i none ++ [some v] := by
  induction i with
  | zero => simp [arrSet]
  | succ n ih => simp [arrSet, ih, List.replicate_succ]

theorem nodeSet_missing (s : St) (n : NodeId) (k : Key) (v : Val)
    (hf : s.heap.find n = none) : s.nodeSet n k v = s := by
  unfold St.nodeSet
  rw [hf]

theorem tblMem_set {α : Type} (m : Tbl α) (i : Nat) (v : α) (e : Nat × α)
    (h : e ∈ Tbl.set m i v) : e ∈ m ∨ e = (i, v) := by
  induction m with
  | nil => simp [Tbl.set] at h; simp [h]
  | cons e' rest ih =>
      obtain ⟨k', w⟩ := e'
      by_cases hk : k' = i
      · subst hk
        simp only [Tbl.set, if_pos rfl] at h
        rcases List.mem_cons.mp h with h | h
        · right; exact h
        · left; exact List.mem_cons_of_mem _ h
      · simp only [Tbl.set, if_neg hk] at h
        rcases List.mem_cons.mp h with h | h
        · left; simp [h]
        · rcases ih h with h | h
          · left; exact List.mem_cons_of_mem _ h
          · right; exact h

theorem munamuna_register (s : St) (o : NodeId) :
    (munamuna s o).1.proxyMap.find o = some (munamuna s o).2 := by
  unfold munamuna
  cases hf : s.proxyMap.find o with
  | some p => simp [hf]
  | none => simp [hf, tblFind_set_self]

theorem munamuna_idem (s : St) (o : NodeId) (s1 : St) (q : ProxyId)
    (h : munamuna s o = (s1, q)) : munamuna s1 o = (s1, q) := by
  have hr := munamuna_register s o
  rw [h] at hr
  unfold munamuna
  rw [hr]

theorem munamuna_heap (s : St) (o : NodeId) : (munamuna s o).1.heap = s.heap := by
  unfold munamuna
  cases s.proxyMap.find o <;> rfl

theorem munamuna_proxies_find (s : St) (o : NodeId) (p : ProxyId) (n : NodeId)
    (hb : ∀ e ∈ s.proxies, e.1 < s.nextProxy)
    (hp : s.proxies.find p = some n) :
    (munamuna s o).1.proxies.find p = some n := by
  unfold munamuna
  cases hf : s.proxyMap.find o with
  | some q => simpa [hf] using hp
  | none =>
      have hlt : p < s.nextProxy := hb _ (tblFind_mem _ _ _ hp)
      simp [hf, tblFind_set_ne _ _ _ _ (Nat.ne_of_gt hlt), hp]


theorem createChild_idem (s : St) (p : ProxyId) (k : Key) (obj : Nat) (nob : NodeObj)
    (s1 : St) (q : ProxyId)
    (hbh : ∀ e ∈ s.heap, e.1 < s.nextNode)
    (hbm : ∀ e ∈ s.metaMap, e.2.1 < s.nextNode)
    (hbp : ∀ e ∈ s.proxies, e.1 < s.nextProxy)
    (h1 : s.proxies.find p = some obj)
    (h2 : s.heap.find obj = some nob)
    (h3 : createChild s p obj k = .ok (s1, q)) :
    getChild s1 p k = .ok (s1, q) := by
  have hobj : obj < s.nextNode := hbh _ (tblFind_mem _ _ _ h2)
  have hpp : p < s.nextProxy := hbp _ (tblFind_mem _ _ _ h1)
  unfold createChild at h3
  simp only at h3
  rw [tblFind_set_ne _ _ _ _ (Nat.ne_of_gt hobj), h2] at h3
  cases nob with
  | obj es =>
      rw [nodeSet_eq _ _ _ _ (.obj es)
        (by simp [tblFind_set_ne _ _ _ _ (Nat.ne_of_gt hobj), h2])] at h3
      simp only [Except.ok.injEq] at h3
      have hfst := congrArg Prod.fst h3
      simp only at hfst
      have hp1 : s1.proxies.find p = some obj := by
        rw [← hfst]
        exact munamuna_proxies_find _ _ _ _ (by simpa using hbp) (by simpa using h1)
      have hh := congrArg St.heap hfst
      rw [munamuna_heap] at hh
      simp only at hh
      have hg1 : s1.nodeGet obj k = some (.ref s.nextNode) := by
        unfold St.nodeGet
        rw [← hh]
        simp [tblFind_set_self, nodeObjGet_set_self _ _ _ (show storable (NodeObj.obj es) k = true from rfl)]
      unfold getChild
      rw [hp1]
      simp only
      rw [hg1]
      simp only
      exact congrArg Except.ok (munamuna_idem _ _ _ _ h3)
  | fn sp r m es =>
      rw [nodeSet_eq _ _ _ _ (.fn sp r m es)
        (by simp [tblFind_set_ne _ _ _ _ (Nat.ne_of_gt hobj), h2])] at h3
      simp only [Except.ok.injEq] at h3
      have hfst := congrArg Prod.fst h3
      simp only at hfst
      have hp1 : s1.proxies.find p = some obj := by
        rw [← hfst]
        exact munamuna_proxies_find _ _ _ _ (by simpa using hbp) (by simpa using h1)
      have hh := congrArg St.heap hfst
      rw [munamuna_heap] at hh
      simp only at hh
      have hg1 : s1.nodeGet obj k = some (.ref s.nextNode) := by
        unfold St.nodeGet
        rw [← hh]
        simp [tblFind_set_self, nodeObjGet_set_self _ _ _ (show storable (NodeObj.fn sp r m es) k = true from rfl)]
      unfold getChild
      rw [hp1]
      simp only
      rw [hg1]
      simp only
      exact congrArg Except.ok (munamuna_idem _ _ _ _ h3)
  | arr el =>
      simp only at h3
      cases hm : s.metaMap.find obj with
      | none =>
          rw [hm] at h3
          simp at h3
      | some pr =>
          obtain ⟨par, pk⟩ := pr
          rw [hm] at h3
          simp only at h3
          have hpar : par < s.nextNode := hbm _ (tblFind_mem _ _ _ hm)
          have hpar1 : s.nextNode ≠ par := Nat.ne_of_gt hpar
          have hpar2 : s.nextNode + 1 ≠ par := Nat.ne_of_gt (Nat.lt_succ_of_lt hpar)
          have hpar2' : par ≠ s.nextNode + 1 := Nat.ne_of_lt (Nat.lt_succ_of_lt hpar)
          have hbnd : ∀ e ∈ Tbl.set s.proxies p (s.nextNode + 1), e.1 < s.nextProxy := by
            intro e he
            rcases tblMem_set _ _ _ _ he with hmem | heq
            · exact hbp _ hmem
            · rw [heq]; exact hpp
          cases hpeap : s.heap.find par with
          | some pob =>
              rw [nodeSet_eq _ _ _ _ pob
                (by simp [tblFind_set_ne _ _ _ _ hpar2, tblFind_set_ne _ _ _ _ hpar1, hpeap])] at h3
              simp only [Except.ok.injEq] at h3
              have hfst := congrArg Prod.fst h3
              simp only at hfst
              have hp1 : s1.proxies.find p = some (s.nextNode + 1) := by
                rw [← hfst]
                exact munamuna_proxies_find _ _ _ _ hbnd (tblFind_set_self _ _ _)
              have hh := congrArg St.heap hfst
              rw [munamuna_heap] at hh
              simp only at hh
              have hg1 : s1.nodeGet (s.nextNode + 1) k = some (.ref s.nextNode) := by
                unfold St.nodeGet
                rw [← hh]
                simp [tblFind_set_ne _ _ _ _ hpar2', tblFind_set_self, nodeObjGet, entGet]
              unfold getChild
              rw [hp1]
              simp only
              rw [hg1]
              simp only
              exact congrArg Except.ok (munamuna_idem _ _ _ _ h3)
          | none =>
              rw [nodeSet_missing _ _ _ _
                (by simp [tblFind_set_ne _ _ _ _ hpar2, tblFind_set_ne _ _ _ _ hpar1, hpeap])] at h3
              simp only [Except.ok.injEq] at h3
              have hfst := congrArg Prod.fst h3
              simp only at hfst
              have hp1 : s1.proxies.find p = some (s.nextNode + 1) := by
                rw [← hfst]
                exact munamuna_proxies_find _ _ _ _ hbnd (tblFind_set_self _ _ _)
              have hh := congrArg St.heap hfst
              rw [munamuna_heap] at hh
              simp only at hh
              have hg1 : s1.nodeGet (s.nextNode + 1) k = some (.ref s.nextNode) := by
                unfold St.nodeGet
                rw [← hh]
                simp [tblFind_set_self, nodeObjGet, entGet]
              unfold getChild
              rw [hp1]
              simp only
              rw [hg1]
              simp only
              exact congrArg Except.ok (munamuna_idem _ _ _ _ h3)

/-! ### Claim theorems -/

/-- C1: the claim states that assigning a composite value V over an existing
same-shape composite child C at `N[K]` clears all of C's own entries, copies
V's entries into C, and leaves every other entry of N alone.  Evaluating the
engine at `mock.k.a = 1; mock.a = 99; mock.k = { b: 2 }` shows the opposite:
the source's merge branch executes `delete obj[prop]` over the property
names of C, deleting the PARENT's sibling entry `a` and leaving C's old
entry `a` in place, so the root becomes `{ k: { a: 1, b: 2 } }` instead of
the claimed `{ k: { b: 2 }, a: 99 }`. -/
theorem c1_same_shape_merge_bug :
    c1run = .ok (.obj [(.str "k", .obj [(.str "a", .num 1), (.str "b", .num 2)])], none) ∧
    (Except.ok (JVal.obj [(.str "k", .obj [(.str "a", .num 1), (.str "b", .num 2)])],
        (none : Option Val)) : Except String (JVal × Option Val)) ≠
      .ok (.obj [(.str "k", .obj [(.str "b", .num 2)]), (.str "a", .num 99)],
        some (.prim (.num 99))) :=
  ⟨rfl, by simp⟩

/-- C2 counterexample: after `mock.a.b = 1; mock.c.d = 2; mock.a[reset]()`,
the root still owns the entry `a` (bound to the same node 1, now empty), so
`[reset]` did NOT sever the node's attachment from its parent as the claim
states — the serialized root is `{ a: {}, c: { d: 2 } }`, not
`{ c: { d: 2 } }`. -/
theorem c2_reset_detaches_counterexample :
    c2run = .ok (.obj [(.str "a", .obj []), (.str "c", .obj [(.str "d", .num 2)])],
      some (.ref 1)) ∧
    some (Val.ref 1) ≠ (none : Option Val) :=
  ⟨rfl, by simp⟩

/-- C2 amended: invoking the reset operator's callable on a non-root object
node deletes all of the node's own enumerable entries (clearing its
children) but does NOT sever the node's attachment: the parent node is
untouched, so `P[K]` still references the now-empty node, sibling entries
of `P` are intact, and the attachment metadata is retained. -/
theorem c2_reset_clears_only (s : St) (p obj par : Nat) (pk : Key) (es : List (Key × Val))
    (h1 : s.proxies.find p = some obj)
    (h2 : s.heap.find obj = some (.obj es))
    (_h3 : s.metaMap.find obj = some (par, pk))
    (h4 : obj ≠ par) :
    resetOp s p = .ok { s with heap := s.heap.set obj (.obj []) } ∧
    Tbl.find (s.heap.set obj (.obj [])) obj = some (.obj []) ∧
    Tbl.find (s.heap.set obj (.obj [])) par = s.heap.find par :=
  ⟨by simp [resetOp, h1, h2], tblFind_set_self _ _ _, tblFind_set_ne _ _ _ _ h4⟩

theorem c2_reset_clears_only_witness :
    resetOp (attachedChildSt "a" [(.str "b", .prim (.num 1))]) 1 =
      .ok { attachedChildSt "a" [(.str "b", .prim (.num 1))] with
        heap := (attachedChildSt "a" [(.str "b", .prim (.num 1))]).heap.set 1 (.obj []) } ∧
    Tbl.find ((attachedChildSt "a" [(.str "b", .prim (.num 1))]).heap.set 1 (.obj [])) 1 =
      some (.obj []) ∧
    Tbl.find ((attachedChildSt "a" [(.str "b", .prim (.num 1))]).heap.set 1 (.obj [])) 0 =
      (attachedChildSt "a" [(.str "b", .prim (.num 1))]).heap.find 0 :=
  c2_reset_clears_only (attachedChildSt "a" [(.str "b", .prim (.num 1))]) 1 1 0 (.str "a")
    [(.str "b", .prim (.num 1))] rfl rfl rfl (by decide)

/-- C3 counterexample: plain property assignment of a callable
(`mock.f = someFunction`) does not throw — the engine returns normally and
the function value is installed at `root.f`, so the backing tree changed,
contradicting the claim that such an assignment throws a usage error and
leaves the tree unchanged. -/
theorem c3_function_assignment_counterexample :
    c3run = .ok (some (.prim (.funVal 7))) ∧
    some (Val.prim (.funVal 7)) ≠ (none : Option Val) :=
  ⟨rfl, by simp⟩

/-- C3 amended: assigning a function value at a non-numeric key on an
object-backed handle is not rejected: `typeof newVal === 'object'` is false
for callables, so the set trap falls through to the plain-install branch
and stores the function value at `N[K]` exactly like a primitive, changing
nothing else in the state. -/
theorem c3_function_assignment_installs (s : St) (p obj : Nat) (es : List (Key × Val))
    (k : String) (fid : Nat)
    (h1 : s.proxies.find p = some obj)
    (h2 : s.heap.find obj = some (.obj es)) :
    setChild s p (.str k) (.prim (.funVal fid)) =
      .ok { s with heap := s.heap.set obj (.obj (entSet es (.str k) (.prim (.funVal fid)))) } := by
  simp [setChild, h1, isObjectVal, h2, St.nodeSet, nodeObjSet]

theorem c3_function_assignment_installs_witness :
    setChild rootOnlySt 0 (.str "f") (.prim (.funVal 7)) =
      .ok { rootOnlySt with
        heap := rootOnlySt.heap.set 0 (.obj (entSet [] (.str "f") (.prim (.funVal 7)))) } :=
  c3_function_assignment_installs rootOnlySt 0 0 [] "f" 7 rfl rfl

/-- C4: the claim (and the repository's readme and test suite) state that a
property get with a numeric key on an object node upgrades the node to an
array, so `H.value[0].outer.inner = 'x'` on a fresh root should produce
`{ value: [{ outer: { inner: 'x' } }] }`.  The get trap of the verified
source has no numeric-key handling: evaluating the engine at that input
installs a plain object entry under the numeric key, producing an object
`{ value: { 0: { outer: { inner: 'x' } } } }` — not an array. -/
theorem c4_numeric_get_no_array_upgrade :
    c4run = .ok (.obj [(.str "value",
        .obj [(.num 0, .obj [(.str "outer", .obj [(.str "inner", .str "x")])])])]) ∧
    (Except.ok (JVal.obj [(.str "value",
        .obj [(.num 0, .obj [(.str "outer", .obj [(.str "inner", .str "x")])])])]) :
      Except String JVal) ≠
      .ok (.obj [(.str "value",
        .arr [.obj [(.str "outer", .obj [(.str "inner", .str "x")])]])]) :=
  ⟨rfl, by simp⟩

/-- C5: a property set with numeric key `i` on a non-root node that is not
an array synthesizes a new array at the node's own attachment point
(replacing the node as the value in its parent), assigns the value at index
`i` with the intervening indices left as holes, rebinds the handle to the
new array, and records the array's attachment metadata; concretely,
`H.value[0] = 12` on a fresh empty root yields `{ value: [12] }`. -/
theorem c5_first_index_set_creates_array :
    (∀ (s : St) (p obj par : Nat) (pk : Key) (nob pob : NodeObj) (i : Nat) (v : Val) (s1 : St),
      s.proxies.find p = some obj →
      s.heap.find obj = some nob →
      nob.isArrNode = false →
      s.metaMap.find obj = some (par, pk) →
      s.heap.find par = some pob →
      storable pob pk = true →
      par ≠ s.nextNode →
      setChild s p (.num i) v = .ok s1 →
      s1.heap.find s.nextNode = some (.arr (List.replicate i none ++ [some v])) ∧
      s1.nodeGet par pk = some (.ref s.nextNode) ∧
      s1.proxies.find p = some s.nextNode ∧
      s1.metaMap.find s.nextNode = some (par, pk)) ∧
    c5run = .ok (.obj [(.str "value", .arr [.num 12])]) := by
  constructor
  · intro s p obj par pk nob pob i v s1 h1 h2 hno h3 h6 h7 h5 hrun
    unfold setChild at hrun
    rw [h1] at hrun
    simp only at hrun
    rw [h2] at hrun
    cases nob with
    | arr el => simp [NodeObj.isArrNode] at hno
    | obj es =>
        rw [h3] at hrun
        simp only at hrun
        rw [nodeSet_eq _ _ _ _ (.arr [])
          (by simp [heap_nodeSet_other _ _ _ _ _ (Ne.symm h5), tblFind_set_self])] at hrun
        rw [nodeSet_eq _ _ _ _ pob
          (by simpa [tblFind_set_ne _ _ _ _ (Ne.symm h5)] using h6)] at hrun
        simp only [Except.ok.injEq] at hrun
        subst hrun
        refine ⟨?_, ?_, ?_, ?_⟩
        · simp [tblFind_set_self, arrSet, nodeObjSet, arrSet_nil]
        · unfold St.nodeGet
          simp [tblFind_set_ne _ _ _ _ (Ne.symm h5), tblFind_set_self,
            nodeObjGet_set_self _ _ _ h7]
        · simp [tblFind_set_self]
        · simp [tblFind_set_self]
    | fn sp r m es =>
        rw [h3] at hrun
        simp only at hrun
        rw [nodeSet_eq _ _ _ _ (.arr [])
          (by simp [heap_nodeSet_other _ _ _ _ _ (Ne.symm h5), tblFind_set_self])] at hrun
        rw [nodeSet_eq _ _ _ _ pob
          (by simpa [tblFind_set_ne _ _ _ _ (Ne.symm h5)] using h6)] at hrun
        simp only [Except.ok.injEq] at hrun
        subst hrun
        refine ⟨?_, ?_, ?_, ?_⟩
        · simp [tblFind_set_self, arrSet, nodeObjSet, arrSet_nil]
        · unfold St.nodeGet
          simp [tblFind_set_ne _ _ _ _ (Ne.symm h5), tblFind_set_self,
            nodeObjGet_set_self _ _ _ h7]
        · simp [tblFind_set_self]
        · simp [tblFind_set_self]
  · rfl

theorem c5_first_index_set_creates_array_witness :
    afterIndexSetSt.heap.find 2 =
      some (.arr (List.replicate 0 none ++ [some (.prim (.num 12))])) ∧
    afterIndexSetSt.nodeGet 0 (.str "value") = some (.ref 2) ∧
    afterIndexSetSt.proxies.find 1 = some 2 ∧
    afterIndexSetSt.metaMap.find 2 = some (0, .str "value") :=
  c5_first_index_set_creates_array.1 (attachedChildSt "value" []) 1 1 0 (.str "value")
    (.obj []) (.obj [(.str "value", .ref 1)]) 0 (.prim (.num 12)) afterIndexSetSt
    rfl rfl rfl rfl rfl rfl (by decide) rfl

/-- C6: the returns operator — `H.fun[returns] = 12` then invoking the
installed function yields `12`; `H.fun[returns].inner = 12` makes the
invocation yield `{ inner: 12 }` (the container is initialized with the
pre-existing node at the path, preserving previously written
sub-structure); and when a return-value container already exists for the
node, a further `[returns]` access performs no state change and returns the
same handle without constructing a new function. -/
theorem c6_returns_operator :
    c6run1 = .ok (some (.prim (.num 12))) ∧
    c6run2 = .ok (.obj [(.str "inner", .num 12)]) ∧
    (∀ (s : St) (p obj : Nat) (r : RetObjId),
      s.proxies.find p = some obj →
      fsFind s.functionSet (.ref obj) = some r →
      returnsGet s p = .ok (s, p)) :=
  ⟨rfl, rfl, fun s p obj r h1 h2 => by simp [returnsGet, h1, h2]⟩

theorem c6_returns_operator_witness :
    returnsGet returnsDoneSt 1 = .ok (returnsDoneSt, 1) :=
  c6_returns_operator.2.2 returnsDoneSt 1 1 0 rfl rfl

/-- C7: detach deletes `P[K]` while leaving the node's own children and its
`(parent, key)` metadata intact; reattach (in any later state that still
has the metadata, i.e. after arbitrary further mutations of the detached
node) restores `P[K] = N` without touching the node's children; detach on
a root handle (no metadata) throws the usage error; and the concrete
round-trip `mock.a.b = 1; detach; (mutate c = 2 while detached); reattach`
ends with `{ a: { b: 1, c: 2 } }`. -/
theorem c7_detach_reattach_roundtrip :
    (∀ (s : St) (p obj par : Nat) (pk : Key),
      s.proxies.find p = some obj →
      s.metaMap.find obj = some (par, pk) →
      obj ≠ par →
      detachOp s p = .ok (s.nodeDel par pk) ∧
      (s.nodeDel par pk).nodeGet par pk = none ∧
      (s.nodeDel par pk).heap.find obj = s.heap.find obj ∧
      (s.nodeDel par pk).metaMap = s.metaMap) ∧
    (∀ (s : St) (p obj par : Nat) (pk : Key) (pob : NodeObj),
      s.proxies.find p = some obj →
      s.metaMap.find obj = some (par, pk) →
      s.heap.find par = some pob →
      storable pob pk = true →
      obj ≠ par →
      reattachOp s p = .ok (s.nodeSet par pk (.ref obj)) ∧
      (s.nodeSet par pk (.ref obj)).nodeGet par pk = some (.ref obj) ∧
      (s.nodeSet par pk (.ref obj)).heap.find obj = s.heap.find obj) ∧
    (∀ (s : St) (p obj : Nat),
      s.proxies.find p = some obj →
      s.metaMap.find obj = none →
      detachOp s p = .error "Cannot detach a root munamuna") ∧
    c7run = .ok (.obj [], .obj [],
      .obj [(.str "a", .obj [(.str "b", .num 1), (.str "c", .num 2)])]) := by
  refine ⟨?_, ?_, ?_, rfl⟩
  · intro s p obj par pk h1 h2 h4
    exact ⟨by simp [detachOp, h1, h2], nodeGet_nodeDel_self _ _ _,
      heap_nodeDel_other _ _ _ _ h4, metaMap_nodeDel _ _ _⟩
  · intro s p obj par pk pob h1 h2 h3 hs h4
    exact ⟨by simp [reattachOp, h1, h2], nodeGet_nodeSet_self _ _ _ _ _ h3 hs,
      heap_nodeSet_other _ _ _ _ _ h4⟩
  · intro s p obj h1 h2
    simp [detachOp, h1, h2]

theorem c7_detach_reattach_roundtrip_witness :
    (detachOp (attachedChildSt "a" []) 1 =
        .ok ((attachedChildSt "a" []).nodeDel 0 (.str "a")) ∧
      ((attachedChildSt "a" []).nodeDel 0 (.str "a")).nodeGet 0 (.str "a") = none ∧
      ((attachedChildSt "a" []).nodeDel 0 (.str "a")).heap.find 1 =
        (attachedChildSt "a" []).heap.find 1 ∧
      ((attachedChildSt "a" []).nodeDel 0 (.str "a")).metaMap =
        (attachedChildSt "a" []).metaMap) ∧
    (reattachOp (attachedChildSt "a" []) 1 =
        .ok ((attachedChildSt "a" []).nodeSet 0 (.str "a") (.ref 1)) ∧
      ((attachedChildSt "a" []).nodeSet 0 (.str "a") (.ref 1)).nodeGet 0 (.str "a") =
        some (.ref 1) ∧
      ((attachedChildSt "a" []).nodeSet 0 (.str "a") (.ref 1)).heap.find 1 =
        (attachedChildSt "a" []).heap.find 1) ∧
    detachOp rootOnlySt 0 = .error "Cannot detach a root munamuna" :=
  ⟨c7_detach_reattach_roundtrip.1 (attachedChildSt "a" []) 1 1 0 (.str "a")
      rfl rfl (by decide),
    c7_detach_reattach_roundtrip.2.1 (attachedChildSt "a" []) 1 1 0 (.str "a")
      (.obj [(.str "a", .ref 1)]) rfl rfl rfl rfl (by decide),
    c7_detach_reattach_roundtrip.2.2.1 rootOnlySt 0 0 rfl rfl⟩

/-- C8: invoking a handle as a function is the same operation as accessing
its returnsSpy operator — the two trap embeddings are equal as functions of
the state and proxy, and the concrete scripts `mock.fun().field = 1` and
`mock.fun[returnsSpy].field = 1` produce identical engine states. -/
theorem c8_call_is_returnsSpy :
    applyTrap = returnsSpyGet ∧ c8runApply = c8runSpy :=
  ⟨rfl, rfl⟩

/-- C9: handle lookup is reference-stable — on any allocation-sound state
(`St.Bounded`), performing the navigation get for the same node and key
twice in a row returns the exact same handle (and the same state: the
second get is a no-op), and calling the top-level entry function twice on
the same object yields the same handle object. -/
theorem c9_handle_reference_stability :
    (∀ (s : St) (p : ProxyId) (k : Key) (obj : Nat) (nob : NodeObj) (s1 : St) (q : ProxyId),
      s.Bounded → s.proxies.find p = some obj → s.heap.find obj = some nob →
      getChild s p k = .ok (s1, q) → getChild s1 p k = .ok (s1, q))
  ∧ (∀ (s : St) (o : Nat) (s1 : St) (q : ProxyId),
      munamuna s o = (s1, q) → munamuna s1 o = (s1, q)) := by
  constructor
  · intro s p k obj nob s1 q hb h1 h2 h3
    obtain ⟨hbh, hbm, hbp⟩ := hb
    unfold getChild at h3
    rw [h1] at h3
    simp only at h3
    cases hg : s.nodeGet obj k with
    | some v =>
        cases v with
        | ref n =>
            rw [hg] at h3
            simp only [Except.ok.injEq] at h3
            have hp1 : s1.proxies.find p = some obj := by
              have hx := munamuna_proxies_find s n p obj hbp h1
              rw [h3] at hx
              simpa using hx
            have hh := munamuna_heap s n
            rw [h3] at hh
            simp only at hh
            have hg1 : s1.nodeGet obj k = some (.ref n) := by
              rw [nodeGet_heap_congr s s1 obj k (by rw [hh])]
              exact hg
            unfold getChild
            rw [hp1]
            simp only
            rw [hg1]
            simp only
            exact congrArg Except.ok (munamuna_idem _ _ _ _ h3)
        | prim pr =>
            rw [hg] at h3
            simp only at h3
            exact createChild_idem s p k obj nob s1 q hbh hbm hbp h1 h2 h3
    | none =>
        rw [hg] at h3
        simp only at h3
        exact createChild_idem s p k obj nob s1 q hbh hbm hbp h1 h2 h3
  · intro s o s1 q h
    exact munamuna_idem s o s1 q h


theorem c9_handle_reference_stability_witness :
    getChild afterFirstGetSt 0 (.str "a") = .ok (afterFirstGetSt, 1) ∧
    munamuna rootOnlySt 0 = (rootOnlySt, 0) :=
  ⟨c9_handle_reference_stability.1 rootOnlySt 0 (.str "a") 0 (.obj []) afterFirstGetSt 1
      (by decide) rfl rfl rfl,
    c9_handle_reference_stability.2 rootOnlySt 0 rootOnlySt 0 rfl⟩

/-- C10: on a root handle (a node with no attachment metadata and no
return-value container), every function-installing operation — the returns,
returnsSpy and spy operator gets, every spy passthrough method access,
invoking the handle as a function, and the returns/returnsSpy operator
sets — throws the error `Cannot create a function on a top-level munamuna`;
the check is the first statement of `mockFunction`, before any mutation. -/
theorem c10_root_function_install_errors (s : St) (p obj : Nat)
    (h1 : s.proxies.find p = some obj)
    (h2 : s.metaMap.find obj = none)
    (h3 : fsFind s.functionSet (.ref obj) = none) :
    returnsGet s p = .error "Cannot create a function on a top-level munamuna" ∧
    returnsSpyGet s p = .error "Cannot create a function on a top-level munamuna" ∧
    applyTrap s p = .error "Cannot create a function on a top-level munamuna" ∧
    spyGet s p = .error "Cannot create a function on a top-level munamuna" ∧
    (∀ m, spyMethodGet s p m = .error "Cannot create a function on a top-level munamuna") ∧
    (∀ v, returnsSet s p v = .error "Cannot create a function on a top-level munamuna") ∧
    (∀ v, returnsSpySet s p v = .error "Cannot create a function on a top-level munamuna") := by
  refine ⟨?_, ?_, ?_, ?_, ?_, ?_, ?_⟩ <;>
    simp [returnsGet, returnsSpyGet, applyTrap, spyGet, spyMethodGet, returnsSet, returnsSpySet,
      mockFunction, h1, h2, h3, Bind.bind, Except.bind]

theorem c10_root_function_install_errors_witness :
    returnsGet rootOnlySt 0 = .error "Cannot create a function on a top-level munamuna" ∧
    applyTrap rootOnlySt 0 = .error "Cannot create a function on a top-level munamuna" ∧
    spyMethodGet rootOnlySt 0 "mockReturnValue" =
      .error "Cannot create a function on a top-level munamuna" ∧
    returnsSet rootOnlySt 0 (.prim (.num 5)) =
      .error "Cannot create a function on a top-level munamuna" :=
  ⟨(c10_root_function_install_errors rootOnlySt 0 0 rfl rfl rfl).1,
    (c10_root_function_install_errors rootOnlySt 0 0 rfl rfl rfl).2.2.1,
    (c10_root_function_install_errors rootOnlySt 0 0 rfl rfl rfl).2.2.2.2.1 "mockReturnValue",
    (c10_root_function_install_errors rootOnlySt 0 0 rfl rfl rfl).2.2.2.2.2.1 (.prim (.num 5))⟩

end Munamuna
